import Mathlib

/-!
# User API: the service layer over an explicit store

A shallow embedding of `internal/service/user_service.go`,
`internal/repository/user_repository.go` and the parts of
`internal/handler/user_handler.go` that guard them.  The database is an
explicit list of rows that is passed in and returned; the wall clock
(`time.Now()`) is an explicit argument `now`.
-/

namespace UserApi

/-! ## Go `int` -/

/-- Two's-complement wrap-around of a mathematical integer to a Go `int` (64 bits). -/
def wrap64 (x : Int) : Int := (x + 2 ^ 63) % 2 ^ 64 - 2 ^ 63

/-- Largest Go `int`. -/
def maxInt : Int := 2 ^ 63 - 1

/-! ## `time.Time`, restricted to its civil date -/

/-- The civil date of a `time.Time` (the service reads nothing else of it). -/
structure Time where
  Year : Int
  Month : Nat
  Day : Nat
  deriving DecidableEq, Repr

/-- Go `time.isLeap`. -/
def isLeap (year : Int) : Bool :=
  year % 4 == 0 && (year % 100 != 0 || year % 400 == 0)

/-- Go `time.daysBefore`: `daysBefore m` is the number of days in a non-leap
year before month `m + 1` starts. -/
def daysBefore : Nat → Nat
  | 0 => 0
  | 1 => 31
  | 2 => 31 + 28
  | 3 => 31 + 28 + 31
  | 4 => 31 + 28 + 31 + 30
  | 5 => 31 + 28 + 31 + 30 + 31
  | 6 => 31 + 28 + 31 + 30 + 31 + 30
  | 7 => 31 + 28 + 31 + 30 + 31 + 30 + 31
  | 8 => 31 + 28 + 31 + 30 + 31 + 30 + 31 + 31
  | 9 => 31 + 28 + 31 + 30 + 31 + 30 + 31 + 31 + 30
  | 10 => 31 + 28 + 31 + 30 + 31 + 30 + 31 + 31 + 30 + 31
  | 11 => 31 + 28 + 31 + 30 + 31 + 30 + 31 + 31 + 30 + 31 + 30
  | _ => 31 + 28 + 31 + 30 + 31 + 30 + 31 + 31 + 30 + 31 + 30 + 31

/-- Go `time.daysIn`. -/
def daysIn (m : Nat) (year : Int) : Nat :=
  if m = 2 ∧ isLeap year = true then 29 else daysBefore m - daysBefore (m - 1)

/-- A civil date that a `time.Time` can hold. -/
def Time.valid (t : Time) : Prop :=
  1 ≤ t.Month ∧ t.Month ≤ 12 ∧ 1 ≤ t.Day ∧ t.Day ≤ daysIn t.Month t.Year

instance (t : Time) : Decidable t.valid := by
  unfold Time.valid; infer_instance

/-- Go `Time.YearDay`: the day of the year, 1 for 1 January. -/
def Time.YearDay (t : Time) : Int :=
  ((daysBefore (t.Month - 1) + (if isLeap t.Year = true ∧ 3 ≤ t.Month then 1 else 0) + t.Day : Nat) : Int)

/-- Go `time.Date(year, month, day, ...)` for a month in 1..12 and a day of at
least 1: days beyond the end of the month carry into the following months. -/
def normDate : Nat → Int → Nat → Nat → Time
  | 0, y, m, d => ⟨y, m, d⟩
  | fuel + 1, y, m, d =>
    if d ≤ daysIn m y then ⟨y, m, d⟩
    else if m = 12 then normDate fuel (y + 1) 1 (d - daysIn m y)
    else normDate fuel y (m + 1) (d - daysIn m y)

/-- Go `Time.AddDate(years, 0, 0)`. -/
def Time.AddDate (t : Time) (years : Int) : Time :=
  normDate t.Day (t.Year + years) t.Month t.Day

/-! ## The age algorithm -/

/-- `service.CalculateAge`, with `time.Now()` passed as `now`. -/
def CalculateAge (now dob : Time) : Int :=
  let age := now.Year - dob.Year
  if now.YearDay < dob.YearDay then age - 1 else age

/-- The reference of `TestCalculateAge`, with `time.Now()` passed as `now`. -/
def calculateExpectedAge (now dob : Time) : Int :=
  let age := now.Year - dob.Year
  let age := if now.YearDay < dob.YearDay then age - 1 else age
  age

/-- The exact age in whole years: the year difference, less one when the
current (month, day) is earlier than the birth (month, day). -/
def exactAge (now dob : Time) : Int :=
  if now.Month < dob.Month ∨ (now.Month = dob.Month ∧ now.Day < dob.Day)
  then now.Year - dob.Year - 1 else now.Year - dob.Year

/-! ## Errors -/

/-- The Go `error` values that reach the service layer. -/
inductive GoError where
  /-- `sql.ErrNoRows`. -/
  | errNoRows
  /-- A `*time.ParseError` for the given text. -/
  | parseError (value : String)
  /-- Any error raised by the database driver. -/
  | driver (msg : String)
  /-- The value of `errors.New(msg)`. -/
  | new (msg : String)
  deriving DecidableEq, Repr

/-! ## `time.Parse` and `Time.Format` for the layout `"2006-01-02"` -/

/-- Go `time.isDigit`. -/
def isDigit (c : Char) : Bool := 48 ≤ c.toNat && c.toNat ≤ 57

/-- The value of a decimal digit, `c - '0'`. -/
def digitVal (c : Char) : Nat := c.toNat - 48

/-- The decimal digit of `n`, `'0' + n`. -/
def digitChar (n : Nat) : Char := Char.ofNat (48 + n)

/-- Go `time.Parse("2006-01-02", value)`: four digits, `-`, two digits, `-`,
two digits and nothing else; the month in 1..12 and the day in 1..daysIn. -/
def Parse (value : String) : Except GoError Time :=
  match value.data with
  | [y1, y2, y3, y4, s1, m1, m2, s2, d1, d2] =>
    if isDigit y1 && isDigit y2 && isDigit y3 && isDigit y4 && s1 == '-'
        && isDigit m1 && isDigit m2 && s2 == '-' && isDigit d1 && isDigit d2 then
      let year : Nat := digitVal y1 * 1000 + digitVal y2 * 100 + digitVal y3 * 10 + digitVal y4
      let month := digitVal m1 * 10 + digitVal m2
      let day := digitVal d1 * 10 + digitVal d2
      if month < 1 ∨ 12 < month then .error (.parseError value)
      else if day < 1 ∨ daysIn month year < day then .error (.parseError value)
      else .ok ⟨year, month, day⟩
    else .error (.parseError value)
  | _ => .error (.parseError value)

/-- Go `time.appendInt`: the decimal text of `x`, zero-padded to `width` digits. -/
def appendInt (x : Int) (width : Nat) : List Char :=
  let u := x.natAbs
  let sign := if x < 0 then ['-'] else []
  if width = 2 ∧ u < 100 then
    sign ++ [digitChar (u / 10), digitChar (u % 10)]
  else if width = 4 ∧ u < 10000 then
    sign ++ [digitChar (u / 1000), digitChar (u / 100 % 10), digitChar (u / 10 % 10),
      digitChar (u % 10)]
  else
    let ds := Nat.toDigits 10 u
    sign ++ List.replicate (width - ds.length) '0' ++ ds

/-- Go `t.Format("2006-01-02")`. -/
def Time.Format (t : Time) : String :=
  ⟨appendInt t.Year 4 ++ ['-'] ++ appendInt t.Month 2 ++ ['-'] ++ appendInt t.Day 2⟩

/-! ## Models (`internal/models/user.go`) -/

/-- `models.User`; the two timestamps are set by the store and never read. -/
structure User where
  ID : Int
  Name : String
  DOB : Time
  deriving DecidableEq, Repr

/-- `models.UserRequest`. -/
structure UserRequest where
  Name : String
  DOB : String
  deriving DecidableEq, Repr

/-- `models.UserResponse`; `Age` is a pointer, `none` when it is nil. -/
structure UserResponse where
  ID : Int
  Name : String
  DOB : String
  Age : Option Int
  deriving DecidableEq, Repr

/-- `models.UserListResponse`. -/
structure UserListResponse where
  Users : List UserResponse
  Page : Int
  PageSize : Int
  Total : Int
  TotalPages : Int
  deriving DecidableEq, Repr

/-! ## The store -/

/-- One row of the table `users(id, name, dob)`. -/
structure Row where
  id : Int
  name : String
  dob : String
  deriving DecidableEq, Repr

/-- The database: the rows of `users`, the next auto-increment id, and the
number of statements the driver has been asked to run. -/
structure DB where
  rows : List Row
  nextId : Int
  calls : Nat
  deriving DecidableEq, Repr

/-- The primary key and auto-increment invariants of `users`. -/
def DB.wf (db : DB) : Prop :=
  (db.rows.map Row.id).Nodup ∧ ∀ r ∈ db.rows, r.id < db.nextId

/-- What the driver does with the statements of one repository call: the error
(if any) of `Exec`, of `LastInsertId`/`RowsAffected`, of the `COUNT(*)` query
and of the row query, and whether `RowsAffected` of an `UPDATE` counts the
matched rows (`clientFoundRows`) or only the rows whose values changed. -/
structure Driver where
  execErr : Option GoError
  resultErr : Option GoError
  countErr : Option GoError
  queryErr : Option GoError
  clientFoundRows : Bool
  deriving DecidableEq, Repr

/-- A driver on which every statement runs. -/
def Driver.healthy : Driver := ⟨none, none, none, none, false⟩

/-- One more statement sent to the driver. -/
def DB.tick (db : DB) : DB := { db with calls := db.calls + 1 }

/-! ## Repository (`internal/repository/user_repository.go`) -/

namespace repository

/-- `UserRepository.CreateUser`: `INSERT INTO users (name, dob)`, then
`LastInsertId`. -/
def CreateUser (db : DB) (drv : Driver) (name : String) (dob : Time) :
    DB × Except GoError Int :=
  match drv.execErr with
  | some err => (db.tick, .error err)
  | none =>
    let id := db.nextId
    let db1 : DB := { rows := db.rows ++ [⟨id, name, dob.Format⟩], nextId := id + 1,
                      calls := db.calls + 1 }
    match drv.resultErr with
    | some err => (db1, .error err)
    | none => (db1, .ok id)

/-- `UserRepository.GetUserByID`: `SELECT ... WHERE id = ? LIMIT 1`, then the
date of birth is parsed. -/
def GetUserByID (db : DB) (drv : Driver) (id : Int) : DB × Except GoError User :=
  match drv.queryErr with
  | some err => (db.tick, .error err)
  | none =>
    match db.rows.find? (fun r => r.id == id) with
    | none => (db.tick, .error .errNoRows)
    | some r =>
      match Parse r.dob with
      | .error err => (db.tick, .error err)
      | .ok dob => (db.tick, .ok ⟨r.id, r.name, dob⟩)

/-- The rows of `SELECT ... ORDER BY id LIMIT limit OFFSET offset`. -/
def selectPage (rows : List Row) (offset limit : Nat) : List Row :=
  ((rows.insertionSort (fun a b => a.id ≤ b.id)).drop offset).take limit

/-- The scan loop of `GetAllUsers`: each row becomes a `User`, and the first
date of birth that does not parse ends the loop with its error. -/
def scanRows : List Row → Except GoError (List User)
  | [] => .ok []
  | r :: rest =>
    match Parse r.dob with
    | .error err => .error err
    | .ok dob =>
      match scanRows rest with
      | .error err => .error err
      | .ok users => .ok (⟨r.id, r.name, dob⟩ :: users)

/-- `UserRepository.GetAllUsers`: `SELECT COUNT(*)`, then the page query.  The
server rejects a negative `LIMIT` or `OFFSET`. -/
def GetAllUsers (db : DB) (drv : Driver) (offset limit : Int) :
    DB × Except GoError (List User × Int) :=
  match drv.countErr with
  | some err => (db.tick, .error err)
  | none =>
    let total : Int := db.rows.length
    match drv.queryErr with
    | some err => (db.tick.tick, .error err)
    | none =>
      if offset < 0 ∨ limit < 0 then
        (db.tick.tick, .error (.driver "negative LIMIT or OFFSET"))
      else
        match scanRows (selectPage db.rows offset.toNat limit.toNat) with
        | .error err => (db.tick.tick, .error err)
        | .ok users => (db.tick.tick, .ok (users, total))

/-- The number of rows an `UPDATE ... WHERE id = ?` reports as affected. -/
def updateAffected (drv : Driver) (rows : List Row) (id : Int) (name dob : String) : Nat :=
  (rows.filter (fun r =>
    r.id == id && (drv.clientFoundRows || !(r.name == name && r.dob == dob)))).length

/-- `UserRepository.UpdateUser`: `UPDATE users SET name = ?, dob = ? WHERE id = ?`,
then `RowsAffected`; zero rows is `sql.ErrNoRows`. -/
def UpdateUser (db : DB) (drv : Driver) (id : Int) (name : String) (dob : Time) :
    DB × Except GoError Unit :=
  match drv.execErr with
  | some err => (db.tick, .error err)
  | none =>
    let rowsAffected := updateAffected drv db.rows id name dob.Format
    let db1 : DB :=
      { rows := db.rows.map (fun r => if r.id == id then ⟨r.id, name, dob.Format⟩ else r),
        nextId := db.nextId, calls := db.calls + 1 }
    match drv.resultErr with
    | some err => (db1, .error err)
    | none =>
      if rowsAffected = 0 then (db1, .error .errNoRows)
      else (db1, .ok ())

/-- `UserRepository.DeleteUser`: `DELETE FROM users WHERE id = ?`, then
`RowsAffected`; zero rows is `sql.ErrNoRows`. -/
def DeleteUser (db : DB) (drv : Driver) (id : Int) : DB × Except GoError Unit :=
  match drv.execErr with
  | some err => (db.tick, .error err)
  | none =>
    let rowsAffected := (db.rows.filter (fun r => r.id == id)).length
    let db1 : DB :=
      { rows := db.rows.filter (fun r => !(r.id == id)), nextId := db.nextId,
        calls := db.calls + 1 }
    match drv.resultErr with
    | some err => (db1, .error err)
    | none =>
      if rowsAffected = 0 then (db1, .error .errNoRows)
      else (db1, .ok ())

end repository

/-! ## Service (`internal/service/user_service.go`) -/

namespace service

/-- `errors.Is(err, sql.ErrNoRows)`. -/
def isErrNoRows (err : GoError) : Bool := err == .errNoRows

/-- `UserService.CreateUser`. -/
def CreateUser (db : DB) (drv : Driver) (req : UserRequest) :
    DB × Except GoError UserResponse :=
  match Parse req.DOB with
  | .error _ => (db, .error (.new "invalid date format"))
  | .ok dob =>
    match repository.CreateUser db drv req.Name dob with
    | (db1, .error err) => (db1, .error err)
    | (db1, .ok userID) => (db1, .ok ⟨userID, req.Name, req.DOB, none⟩)

/-- `UserService.GetUserByID`, with `time.Now()` passed as `now`. -/
def GetUserByID (db : DB) (drv : Driver) (now : Time) (id : Int) :
    DB × Except GoError UserResponse :=
  match repository.GetUserByID db drv id with
  | (db1, .error err) =>
    if isErrNoRows err then (db1, .error (.new "user not found"))
    else (db1, .error err)
  | (db1, .ok user) =>
    let age := CalculateAge now user.DOB
    let dobStr := user.DOB.Format
    (db1, .ok ⟨user.ID, user.Name, dobStr, some age⟩)

/-- The page that `GetAllUsers` uses and reports. -/
def clampPage (page : Int) : Int := if page < 1 then 1 else page

/-- The page size that `GetAllUsers` uses and reports. -/
def clampPageSize (pageSize : Int) : Int :=
  let pageSize := if pageSize < 1 then 10 else pageSize
  if pageSize > 100 then 100 else pageSize

/-- The offset `(page - 1) * pageSize` of `GetAllUsers`, in Go `int`
arithmetic, from the clamped page and page size. -/
def pageOffset (page pageSize : Int) : Int := wrap64 (wrap64 (page - 1) * pageSize)

/-- The `totalPages` of `GetAllUsers`: Go `/` and `%` truncate towards zero. -/
def totalPages (total pageSize : Int) : Int :=
  let totalPages := Int.tdiv total pageSize
  if Int.tmod total pageSize > 0 then wrap64 (totalPages + 1) else totalPages

/-- The response entry that the list operations build for one user. -/
def toResponse (now : Time) (user : User) : UserResponse :=
  ⟨user.ID, user.Name, user.DOB.Format, some (CalculateAge now user.DOB)⟩

/-- `UserService.GetAllUsers`, with `time.Now()` passed as `now`. -/
def GetAllUsers (db : DB) (drv : Driver) (now : Time) (page pageSize : Int) :
    DB × Except GoError UserListResponse :=
  let page := clampPage page
  let pageSize := clampPageSize pageSize
  let offset := pageOffset page pageSize
  match repository.GetAllUsers db drv offset pageSize with
  | (db1, .error err) => (db1, .error err)
  | (db1, .ok (users, total)) =>
    let userResponses := users.map (toResponse now)
    (db1, .ok ⟨userResponses, page, pageSize, total, totalPages total pageSize⟩)

/-- `UserService.GetAllUsersSimple`, with `time.Now()` passed as `now`. -/
def GetAllUsersSimple (db : DB) (drv : Driver) (now : Time) :
    DB × Except GoError (List UserResponse) :=
  match repository.GetAllUsers db drv 0 10000 with
  | (db1, .error err) => (db1, .error err)
  | (db1, .ok (users, _)) => (db1, .ok (users.map (toResponse now)))

/-- `UserService.UpdateUser`. -/
def UpdateUser (db : DB) (drv : Driver) (id : Int) (req : UserRequest) :
    DB × Except GoError UserResponse :=
  match Parse req.DOB with
  | .error _ => (db, .error (.new "invalid date format"))
  | .ok dob =>
    match repository.UpdateUser db drv id req.Name dob with
    | (db1, .error err) =>
      if isErrNoRows err then (db1, .error (.new "user not found"))
      else (db1, .error err)
    | (db1, .ok ()) => (db1, .ok ⟨id, req.Name, req.DOB, none⟩)

/-- `UserService.DeleteUser`. -/
def DeleteUser (db : DB) (drv : Driver) (id : Int) : DB × Except GoError Unit :=
  match repository.DeleteUser db drv id with
  | (db1, .error err) =>
    if isErrNoRows err then (db1, .error (.new "user not found"))
    else (db1, .error err)
  | (db1, .ok ()) => (db1, .ok ())

end service

/-! ## Handler (`internal/handler/user_handler.go`) -/

/-- Go `err.Error()`. -/
def GoError.Error : GoError → String
  | .errNoRows => "sql: no rows in result set"
  | .parseError value => "parsing time " ++ value
  | .driver msg => msg
  | .new msg => msg

namespace handler

/-- The HTTP reply: the status code and, on success, the user in the body. -/
structure Reply where
  status : Nat
  user : Option UserResponse
  deriving DecidableEq, Repr

/-- `validate.Struct(&req)` under the tags of `models.UserRequest`:
`required,min=1,max=100` on the name (length in characters) and
`required,date` on the date of birth, `date` being the validator registered in
`NewUserHandler`. -/
def validateStruct (req : UserRequest) : Bool :=
  req.Name != "" && decide (1 ≤ req.Name.length) && decide (req.Name.length ≤ 100)
    && req.DOB != "" && (Parse req.DOB).isOk

/-- `UserHandler.CreateUser`, from the parsed request body on. -/
def CreateUser (db : DB) (drv : Driver) (req : UserRequest) : DB × Reply :=
  if validateStruct req = false then (db, ⟨400, none⟩)
  else
    match service.CreateUser db drv req with
    | (db1, .error _) => (db1, ⟨500, none⟩)
    | (db1, .ok user) => (db1, ⟨201, some user⟩)

/-- `UserHandler.UpdateUser`, from the parsed id and request body on. -/
def UpdateUser (db : DB) (drv : Driver) (id : Int) (req : UserRequest) : DB × Reply :=
  if validateStruct req = false then (db, ⟨400, none⟩)
  else
    match service.UpdateUser db drv id req with
    | (db1, .error err) =>
      if err.Error = "user not found" then (db1, ⟨404, none⟩)
      else (db1, ⟨500, none⟩)
    | (db1, .ok user) => (db1, ⟨200, some user⟩)

/-- The page and page size that `UserHandler.GetAllUsers` passes to the
service, from the results of `strconv.Atoi` on the two query values (`none`
for a value that is absent or not a Go `int`). -/
def pageArgs (p ps : Option Int) : Int × Int :=
  let page := match p with
    | some p => if p > 0 then p else 1
    | none => 1
  let pageSize := match ps with
    | some ps => if ps > 0 then ps else 10
    | none => 10
  (page, pageSize)

end handler

/-! ## Orders on dates and stores -/

/-- The civil date `a` is not after the civil date `b`. -/
def Time.notAfter (a b : Time) : Prop :=
  a.Year < b.Year ∨ (a.Year = b.Year ∧ (a.Month < b.Month ∨ (a.Month = b.Month ∧ a.Day ≤ b.Day)))

instance (a b : Time) : Decidable (a.notAfter b) := by
  unfold Time.notAfter; infer_instance

/-- The two databases hold the same table: only the statement count may differ. -/
def DB.sameStore (a b : DB) : Prop := a.rows = b.rows ∧ a.nextId = b.nextId

instance (a b : DB) : Decidable (a.sameStore b) := by
  unfold DB.sameStore; infer_instance

/-- The store of three users that the examples run on. -/
def sampleDB : DB :=
  ⟨[⟨3, "Carol", "2000-03-01"⟩, ⟨1, "Alice", "1999-12-31"⟩, ⟨2, "Bob", "2000-02-29"⟩], 4, 0⟩

/-- The three stored columns of a row. -/
def Row.cols (r : Row) : Int × String × String := (r.id, r.name, r.dob)

/-- The three columns a response entry shows of its row. -/
def UserResponse.cols (u : UserResponse) : Int × String × String := (u.ID, u.Name, u.DOB)

/-- The whole of `sampleDB` as one page of 100, read on 4 November 2026. -/
def samplePage : UserListResponse :=
  ⟨[⟨1, "Alice", "1999-12-31", some 26⟩, ⟨2, "Bob", "2000-02-29", some 26⟩,
    ⟨3, "Carol", "2000-03-01", some 26⟩], 1, 100, 3, 1⟩

/-! ## Dates: day of the year -/



theorem yearDay_bounds (t : Time) (h : t.valid) :
    1 ≤ t.YearDay ∧ t.YearDay ≤ (if isLeap t.Year = true then 366 else 365) := by
  obtain ⟨h1, h2, h3, h4⟩ := h
  rcases t with ⟨y, m, d⟩
  simp only at h1 h2 h3 h4
  unfold Time.YearDay
  simp only
  interval_cases m <;> cases hl : isLeap y <;> simp [daysIn, daysBefore, hl] at h4 ⊢ <;> omega

/-- C1: at every current date `now` and birth date `dob`, `CalculateAge` is the
year difference when the current day of the year is at least the birth day
of the year and one less otherwise; it equals the reference
`calculateExpectedAge` of the test, and both days of the year lie in 1..366. -/
theorem calculateAge_eq_expected (now dob : Time) (hn : now.valid) (hd : dob.valid) :
    CalculateAge now dob
        = (if dob.YearDay ≤ now.YearDay then now.Year - dob.Year else now.Year - dob.Year - 1)
      ∧ CalculateAge now dob = calculateExpectedAge now dob
      ∧ (1 ≤ now.YearDay ∧ now.YearDay ≤ 366) ∧ (1 ≤ dob.YearDay ∧ dob.YearDay ≤ 366) := by
  have bn := yearDay_bounds now hn
  have bd := yearDay_bounds dob hd
  refine ⟨?_, rfl, ⟨bn.1, ?_⟩, ⟨bd.1, ?_⟩⟩
  · unfold CalculateAge
    by_cases h : now.YearDay < dob.YearDay
    · simp [h, not_le.mpr h]
    · simp [h, not_lt.mp h]
  · split at bn <;> omega
  · split at bd <;> omega

theorem calculateAge_eq_expected_witness :
    (Time.valid ⟨2026, 11, 4⟩ ∧ Time.valid ⟨1990, 5, 10⟩)
      ∧ CalculateAge ⟨2026, 11, 4⟩ ⟨1990, 5, 10⟩ = 36
      ∧ CalculateAge ⟨2026, 11, 4⟩ ⟨1990, 5, 10⟩
          = calculateExpectedAge ⟨2026, 11, 4⟩ ⟨1990, 5, 10⟩ :=
  ⟨⟨by decide, by decide⟩,
   ((calculateAge_eq_expected ⟨2026, 11, 4⟩ ⟨1990, 5, 10⟩ (by decide) (by decide)).1).trans
     (by decide),
   (calculateAge_eq_expected ⟨2026, 11, 4⟩ ⟨1990, 5, 10⟩ (by decide) (by decide)).2.1⟩

/-! ## Parsing and formatting -/

theorem digitChar_digitVal (c : Char) (h : isDigit c = true) :
    digitChar (digitVal c) = c ∧ digitVal c < 10 := by
  simp only [isDigit, Bool.and_eq_true, decide_eq_true_eq] at h
  unfold digitChar digitVal
  constructor
  · have : 48 + (c.toNat - 48) = c.toNat := by omega
    rw [this, Char.ofNat_toNat]
  · omega

/-- What an accepted text looks like: ten characters `dddd-dd-dd` whose month
and day are in range, and the date they spell. -/
theorem parse_ok (s : String) (t : Time) (h : Parse s = .ok t) :
    ∃ y1 y2 y3 y4 m1 m2 d1 d2 : Char,
      s.data = [y1, y2, y3, y4, '-', m1, m2, '-', d1, d2]
      ∧ isDigit y1 = true ∧ isDigit y2 = true ∧ isDigit y3 = true ∧ isDigit y4 = true
      ∧ isDigit m1 = true ∧ isDigit m2 = true ∧ isDigit d1 = true ∧ isDigit d2 = true
      ∧ t = ⟨((digitVal y1 * 1000 + digitVal y2 * 100 + digitVal y3 * 10 + digitVal y4 : Nat) : Int),
             digitVal m1 * 10 + digitVal m2, digitVal d1 * 10 + digitVal d2⟩
      ∧ t.valid := by
  unfold Parse at h
  split at h
  · rename_i y1 y2 y3 y4 s1 m1 m2 s2 d1 d2 hs
    split at h
    · rename_i hc
      simp only [Bool.and_eq_true, beq_iff_eq] at hc
      obtain ⟨⟨⟨⟨⟨⟨⟨⟨⟨h1, h2⟩, h3⟩, h4⟩, e1⟩, h5⟩, h6⟩, e2⟩, h7⟩, h8⟩ := hc
      dsimp only at h
      split at h
      · cases h
      · split at h
        · cases h
        · rename_i hm hd
          injection h with h
          subst h e1 e2
          refine ⟨y1, y2, y3, y4, m1, m2, d1, d2, hs, h1, h2, h3, h4, h5, h6, h7, h8, rfl, ?_⟩
          simp only [Time.valid]
          omega
    · cases h
  · cases h

theorem parse_valid (s : String) (t : Time) (h : Parse s = .ok t) :
    t.valid ∧ 0 ≤ t.Year ∧ t.Year ≤ 9999 := by
  obtain ⟨y1, y2, y3, y4, m1, m2, d1, d2, -, h1, h2, h3, h4, -, -, -, -, ht, hv⟩ := parse_ok s t h
  have b1 := (digitChar_digitVal y1 h1).2
  have b2 := (digitChar_digitVal y2 h2).2
  have b3 := (digitChar_digitVal y3 h3).2
  have b4 := (digitChar_digitVal y4 h4).2
  refine ⟨hv, ?_, ?_⟩ <;> (subst ht; simp only; omega)

theorem format_parse (s : String) (t : Time) (h : Parse s = .ok t) : t.Format = s := by
  obtain ⟨y1, y2, y3, y4, m1, m2, d1, d2, hs, h1, h2, h3, h4, h5, h6, h7, h8, ht, hv⟩ :=
    parse_ok s t h
  obtain ⟨c1, b1⟩ := digitChar_digitVal y1 h1
  obtain ⟨c2, b2⟩ := digitChar_digitVal y2 h2
  obtain ⟨c3, b3⟩ := digitChar_digitVal y3 h3
  obtain ⟨c4, b4⟩ := digitChar_digitVal y4 h4
  obtain ⟨c5, b5⟩ := digitChar_digitVal m1 h5
  obtain ⟨c6, b6⟩ := digitChar_digitVal m2 h6
  obtain ⟨c7, b7⟩ := digitChar_digitVal d1 h7
  obtain ⟨c8, b8⟩ := digitChar_digitVal d2 h8
  have hs2 : s = ⟨[y1, y2, y3, y4, '-', m1, m2, '-', d1, d2]⟩ := by
    rw [← hs]
  generalize digitVal y1 = a1 at *
  generalize digitVal y2 = a2 at *
  generalize digitVal y3 = a3 at *
  generalize digitVal y4 = a4 at *
  generalize digitVal m1 = a5 at *
  generalize digitVal m2 = a6 at *
  generalize digitVal d1 = a7 at *
  generalize digitVal d2 = a8 at *
  have q1 : (a1 * 1000 + a2 * 100 + a3 * 10 + a4) / 1000 = a1 := by omega
  have q2 : (a1 * 1000 + a2 * 100 + a3 * 10 + a4) / 100 % 10 = a2 := by omega
  have q3 : (a1 * 1000 + a2 * 100 + a3 * 10 + a4) / 10 % 10 = a3 := by omega
  have q4 : (a1 * 1000 + a2 * 100 + a3 * 10 + a4) % 10 = a4 := by omega
  have q5 : (a5 * 10 + a6) / 10 = a5 := by omega
  have q6 : (a5 * 10 + a6) % 10 = a6 := by omega
  have q7 : (a7 * 10 + a8) / 10 = a7 := by omega
  have q8 : (a7 * 10 + a8) % 10 = a8 := by omega
  have l1 : a1 * 1000 + a2 * 100 + a3 * 10 + a4 < 10000 := by omega
  have l2 : a5 * 10 + a6 < 100 := by omega
  have l3 : a7 * 10 + a8 < 100 := by omega
  have n1 : ¬ (((a1 * 1000 + a2 * 100 + a3 * 10 + a4 : Nat) : Int) < 0) := by omega
  have n2 : ¬ (((a5 * 10 + a6 : Nat) : Int) < 0) := by omega
  have n3 : ¬ (((a7 * 10 + a8 : Nat) : Int) < 0) := by omega
  rw [hs2, ht]
  simp only [Time.Format, appendInt, Int.natAbs_ofNat, n1, n2, n3, l1, l2, l3, if_false,
    q1, q2, q3, q4, q5, q6, q7, q8, c1, c2, c3, c4, c5, c6, c7, c8]
  simp

/-! ## Pagination arithmetic -/

theorem wrap64_id (x : Int) (h1 : -(2 ^ 63) ≤ x) (h2 : x ≤ maxInt) : wrap64 x = x := by
  unfold wrap64
  unfold maxInt at h2
  norm_num at h1 h2 ⊢
  omega

theorem clampPageSize_range (pageSize : Int) :
    1 ≤ service.clampPageSize pageSize ∧ service.clampPageSize pageSize ≤ 100 := by
  unfold service.clampPageSize
  dsimp only
  split <;> split <;> omega

theorem totalPages_ceil (total p : Int) (h0 : 0 ≤ total) (hmax : total ≤ maxInt)
    (hp1 : 1 ≤ p) :
    service.totalPages total p * p ≥ total
      ∧ (total = 0 → service.totalPages total p = 0)
      ∧ (0 < total → (service.totalPages total p - 1) * p < total) := by
  have hp0 : (0 : Int) ≤ p := by omega
  have hdiv : Int.tdiv total p = total / p := Int.tdiv_eq_ediv h0 hp0
  have hmod : Int.tmod total p = total % p := Int.tmod_eq_emod h0 hp0
  have hsum : total % p + p * (total / p) = total := Int.emod_add_ediv total p
  have hr0 : 0 ≤ total % p := Int.emod_nonneg total (by omega)
  have hr1 : total % p < p := Int.emod_lt_of_pos total (by omega)
  have hq0 : 0 ≤ total / p := Int.ediv_nonneg h0 hp0
  have hqp : total / p ≤ p * (total / p) := by nlinarith
  unfold service.totalPages
  dsimp only
  rw [hdiv, hmod]
  by_cases hr : total % p > 0
  · have hw : wrap64 (total / p + 1) = total / p + 1 :=
      wrap64_id _ (by norm_num; omega) (by omega)
    rw [if_pos hr, hw]
    have e1 : (total / p + 1) * p = p * (total / p) + p := by ring
    have e2 : (total / p + 1 - 1) * p = p * (total / p) := by ring
    rw [e1, e2]
    refine ⟨by omega, fun h => by omega, fun _ => by omega⟩
  · rw [if_neg hr]
    have e1 : total / p * p = p * (total / p) := by ring
    have e2 : (total / p - 1) * p = p * (total / p) - p := by ring
    rw [e1, e2]
    refine ⟨by omega, fun h => ?_, fun _ => by omega⟩
    subst h
    simp

theorem pageOffset_exact (page p : Int) (h1 : 1 ≤ page) (hp : page ≤ maxInt) (h0 : 0 ≤ p)
    (hfit : (page - 1) * p ≤ maxInt) :
    service.pageOffset page p = (page - 1) * p := by
  unfold service.pageOffset
  have hw : wrap64 (page - 1) = page - 1 := wrap64_id _ (by norm_num; omega) (by omega)
  rw [hw]
  have : 0 ≤ (page - 1) * p := Int.mul_nonneg (by omega) h0
  exact wrap64_id _ (by norm_num; omega) hfit

/-! ## What a successful list call did -/

theorem repo_getAllUsers_ok (db db1 : DB) (drv : Driver) (offset limit total : Int)
    (users : List User)
    (h : repository.GetAllUsers db drv offset limit = (db1, .ok (users, total))) :
    total = db.rows.length ∧ 0 ≤ offset ∧ 0 ≤ limit
      ∧ repository.scanRows (repository.selectPage db.rows offset.toNat limit.toNat) = .ok users
      ∧ db1 = db.tick.tick := by
  unfold repository.GetAllUsers at h
  split at h
  · simp at h
  · dsimp only at h
    split at h
    · simp at h
    · split at h
      · simp at h
      · rename_i hneg
        split at h
        · simp at h
        · rename_i us hs
          simp only [Prod.mk.injEq, Except.ok.injEq] at h
          obtain ⟨hdb, hu, ht⟩ := h
          subst hu
          refine ⟨ht.symm, by omega, by omega, hs, hdb.symm⟩

theorem getAllUsers_ok (db db1 : DB) (drv : Driver) (now : Time) (page pageSize : Int)
    (r : UserListResponse)
    (h : service.GetAllUsers db drv now page pageSize = (db1, .ok r)) :
    ∃ users : List User,
      repository.GetAllUsers db drv
          (service.pageOffset (service.clampPage page) (service.clampPageSize pageSize))
          (service.clampPageSize pageSize) = (db1, .ok (users, (db.rows.length : Int)))
      ∧ r = ⟨users.map (service.toResponse now), service.clampPage page,
             service.clampPageSize pageSize, db.rows.length,
             service.totalPages db.rows.length (service.clampPageSize pageSize)⟩ := by
  unfold service.GetAllUsers at h
  dsimp only at h
  split at h
  · simp at h
  · rename_i d us tot hrepo
    simp only [Prod.mk.injEq, Except.ok.injEq] at h
    obtain ⟨hd, hr⟩ := h
    subst hd
    have ht := (repo_getAllUsers_ok _ _ _ _ _ _ _ hrepo).1
    subst ht
    exact ⟨us, hrepo, hr.symm⟩

/-! ## The list operation: page, page size, total pages -/

/-- C2: for every row count `total` that fits a Go `int` and every requested
page size, the total pages computed from the clamped page size `p` is the
ceiling of `total / p`; it is what a successful `GetAllUsers` on a store of
`total` rows reports, next to `Total = total` and `PageSize = p`. -/
theorem getAllUsers_totalPages_ceil (total pageSize : Int) (h0 : 0 ≤ total)
    (hmax : total ≤ maxInt) :
    (service.totalPages total (service.clampPageSize pageSize) * service.clampPageSize pageSize
          ≥ total
      ∧ (total = 0 → service.totalPages total (service.clampPageSize pageSize) = 0)
      ∧ (0 < total →
          (service.totalPages total (service.clampPageSize pageSize) - 1)
            * service.clampPageSize pageSize < total))
    ∧ ∀ (db db1 : DB) (drv : Driver) (now : Time) (page : Int) (r : UserListResponse),
        (db.rows.length : Int) = total →
        service.GetAllUsers db drv now page pageSize = (db1, .ok r) →
        r.Total = total ∧ r.PageSize = service.clampPageSize pageSize
          ∧ r.TotalPages = service.totalPages total (service.clampPageSize pageSize) := by
  refine ⟨totalPages_ceil total _ h0 hmax (clampPageSize_range pageSize).1, ?_⟩
  intro db db1 drv now page r hlen h
  obtain ⟨users, -, hr⟩ := getAllUsers_ok db db1 drv now page pageSize r h
  subst hr
  simp [hlen]

theorem getAllUsers_totalPages_ceil_witness :
    ((0 : Int) ≤ 3 ∧ (3 : Int) ≤ maxInt)
      ∧ service.totalPages 3 (service.clampPageSize 2) * service.clampPageSize 2 ≥ 3
      ∧ (service.GetAllUsers sampleDB Driver.healthy ⟨2026, 11, 4⟩ 2 2).2
          = .ok ⟨[⟨3, "Carol", "2000-03-01", some 26⟩], 2, 2, 3, 2⟩ :=
  ⟨⟨by decide, by decide⟩,
   (getAllUsers_totalPages_ceil 3 2 (by decide) (by decide)).1.1, rfl⟩

/-- C3: a successful `GetAllUsers` reports `Page = max(page, 1)` and a
`PageSize` of 10 for a requested size below 1, of 100 for one above 100 and
the requested size otherwise, so `PageSize` is in 1..100 and `Page` at least 1. -/
theorem getAllUsers_clamps (db db1 : DB) (drv : Driver) (now : Time) (page pageSize : Int)
    (r : UserListResponse)
    (h : service.GetAllUsers db drv now page pageSize = (db1, .ok r)) :
    r.Page = max page 1
      ∧ r.PageSize = (if pageSize < 1 then 10 else if pageSize > 100 then 100 else pageSize)
      ∧ 1 ≤ r.PageSize ∧ r.PageSize ≤ 100 ∧ 1 ≤ r.Page := by
  obtain ⟨users, -, hr⟩ := getAllUsers_ok db db1 drv now page pageSize r h
  subst hr
  simp only [service.clampPage, service.clampPageSize]
  refine ⟨?_, ?_, ?_, ?_, ?_⟩
  · split <;> omega
  · split <;> split <;> omega
  · split <;> split <;> omega
  · split <;> split <;> omega
  · split <;> omega

theorem getAllUsers_clamps_witness :
    service.GetAllUsers sampleDB Driver.healthy ⟨2026, 11, 4⟩ 0 500
        = (⟨sampleDB.rows, 4, 2⟩, .ok samplePage)
      ∧ (samplePage.Page = max 0 1
        ∧ samplePage.PageSize
            = (if (500 : Int) < 1 then 10 else if (500 : Int) > 100 then 100 else 500)
        ∧ 1 ≤ samplePage.PageSize ∧ samplePage.PageSize ≤ 100 ∧ 1 ≤ samplePage.Page) :=
  ⟨rfl, getAllUsers_clamps sampleDB ⟨sampleDB.rows, 4, 2⟩ Driver.healthy ⟨2026, 11, 4⟩ 0 500
    samplePage rfl⟩

/-- C10: the request `page=4611686018427387905&page_size=2` reaches the
service as the Go ints `(2^62 + 1, 2)`; the offset it passes to the repository
is `-2^63` and not the product `(page - 1) * pageSize = 2^63`, and the list
call fails on it. -/
theorem pageOffset_wraps_negative :
    handler.pageArgs (some 4611686018427387905) (some 2) = (4611686018427387905, 2)
      ∧ (4611686018427387905 : Int) ≤ maxInt
      ∧ service.pageOffset (service.clampPage 4611686018427387905) (service.clampPageSize 2)
          = -9223372036854775808
      ∧ (max (4611686018427387905 : Int) 1 - 1) * service.clampPageSize 2
          = 9223372036854775808
      ∧ (service.GetAllUsers sampleDB Driver.healthy ⟨2026, 11, 4⟩ 4611686018427387905 2).2
          = .error (.driver "negative LIMIT or OFFSET") := by
  refine ⟨by decide, by decide, by decide, by decide, by rfl⟩

/-! ## The age algorithm against the calendar -/

/-- C6: on 1 March 2025 the birthday-today case of the test fails: the date 25 years
back is 1 March 2000, day 61 of a leap year, the current day of the year is
60, and `CalculateAge` returns 24 instead of 25. -/
theorem calculateAge_birthday_today_2025 :
    Time.valid ⟨2025, 3, 1⟩
      ∧ Time.AddDate ⟨2025, 3, 1⟩ (-25) = ⟨2000, 3, 1⟩
      ∧ Time.YearDay ⟨2025, 3, 1⟩ = 60 ∧ Time.YearDay ⟨2000, 3, 1⟩ = 61
      ∧ CalculateAge ⟨2025, 3, 1⟩ (Time.AddDate ⟨2025, 3, 1⟩ (-25)) = 24 := by
  decide

/-- C9: the age algorithm is off by one across a leap-year boundary, in both
directions: on 1 March 2023 a person born on 1 March 2000 gets 22 where the
exact age is 23, and on 29 February 2024 a person born on 1 March 2001 gets
23 where the exact age is 22. -/
theorem calculateAge_inexact_across_leap :
    (∃ now dob : Time, now.valid ∧ dob.valid ∧ dob.notAfter now
        ∧ isLeap now.Year ≠ isLeap dob.Year
        ∧ CalculateAge now dob = exactAge now dob - 1)
      ∧ (∃ now dob : Time, now.valid ∧ dob.valid ∧ dob.notAfter now
        ∧ isLeap now.Year ≠ isLeap dob.Year
        ∧ CalculateAge now dob = exactAge now dob + 1) :=
  ⟨⟨⟨2023, 3, 1⟩, ⟨2000, 3, 1⟩, by decide, by decide, by decide, by decide, by decide⟩,
   ⟨⟨2024, 2, 29⟩, ⟨2001, 3, 1⟩, by decide, by decide, by decide, by decide, by decide⟩⟩

/-! ## Validation -/

theorem service_rejects_bad_date (db : DB) (drv : Driver) (id : Int) (req : UserRequest)
    (h : (Parse req.DOB).isOk = false) :
    service.CreateUser db drv req = (db, .error (.new "invalid date format"))
      ∧ service.UpdateUser db drv id req = (db, .error (.new "invalid date format")) := by
  unfold service.CreateUser service.UpdateUser
  cases hp : Parse req.DOB with
  | error e => simp
  | ok t => rw [hp] at h; simp [Except.isOk, Except.toBool] at h

theorem validateStruct_false (req : UserRequest)
    (hbad : (Parse req.DOB).isOk = false ∨ req.Name.length < 1 ∨ 100 < req.Name.length) :
    handler.validateStruct req = false := by
  unfold handler.validateStruct
  rcases hbad with h | h | h
  · simp [h]
  · have : ¬ (1 ≤ req.Name.length) := by omega
    simp [this]
  · have : ¬ (req.Name.length ≤ 100) := by omega
    simp [this]

/-- C7 (amended): `CreateUser` and `UpdateUser` of the service fail with
`invalid date format`, the database untouched and no statement sent, when the
date of birth does not parse as `YYYY-MM-DD`; a name that is not 1 to 100
characters long is refused by the handler, with status 400 and before the
service or the database is reached. -/
theorem validation_rejects (db : DB) (drv : Driver) (id : Int) (req : UserRequest)
    (hbad : (Parse req.DOB).isOk = false ∨ req.Name.length < 1 ∨ 100 < req.Name.length) :
    ((Parse req.DOB).isOk = false →
        service.CreateUser db drv req = (db, .error (.new "invalid date format"))
          ∧ service.UpdateUser db drv id req = (db, .error (.new "invalid date format")))
      ∧ handler.CreateUser db drv req = (db, ⟨400, none⟩)
      ∧ handler.UpdateUser db drv id req = (db, ⟨400, none⟩) := by
  have hv := validateStruct_false req hbad
  refine ⟨service_rejects_bad_date db drv id req, ?_, ?_⟩
  · unfold handler.CreateUser
    rw [if_pos hv]
  · unfold handler.UpdateUser
    rw [if_pos hv]

theorem validation_rejects_witness :
    ((Parse "13/01/2020").isOk = false ∨ "".length < 1 ∨ 100 < "".length)
      ∧ service.CreateUser sampleDB Driver.healthy ⟨"", "13/01/2020"⟩
          = (sampleDB, .error (.new "invalid date format"))
      ∧ handler.CreateUser sampleDB Driver.healthy ⟨"", "13/01/2020"⟩
          = (sampleDB, ⟨400, none⟩) :=
  ⟨Or.inl rfl,
   ((validation_rejects sampleDB Driver.healthy 1 ⟨"", "13/01/2020"⟩ (Or.inl rfl)).1 rfl).1,
   (validation_rejects sampleDB Driver.healthy 1 ⟨"", "13/01/2020"⟩ (Or.inl rfl)).2.1⟩

/-- C7, as stated, fails: the service accepts an empty name (and a name of 101
characters) with a well-formed date of birth and inserts the row. -/
theorem service_accepts_any_name :
    ("".length < 1
        ∧ service.CreateUser ⟨[], 1, 0⟩ Driver.healthy ⟨"", "2000-01-01"⟩
            = (⟨[⟨1, "", "2000-01-01"⟩], 2, 1⟩, .ok ⟨1, "", "2000-01-01", none⟩))
      ∧ (100 < (String.mk (List.replicate 101 'a')).length
        ∧ (service.UpdateUser ⟨[⟨1, "Al", "2000-01-01"⟩], 2, 0⟩ Driver.healthy 1
              ⟨String.mk (List.replicate 101 'a'), "2000-01-01"⟩).2
            = .ok ⟨1, String.mk (List.replicate 101 'a'), "2000-01-01", none⟩) :=
  ⟨⟨by decide, rfl⟩, ⟨by decide, rfl⟩⟩

/-! ## Absent ids -/

theorem find_absent (rows : List Row) (id : Int) (hid : ∀ r ∈ rows, r.id ≠ id) :
    rows.find? (fun r => r.id == id) = none := by
  rw [List.find?_eq_none]
  intro r hr
  simpa using hid r hr

theorem filter_absent (rows : List Row) (id : Int) (hid : ∀ r ∈ rows, r.id ≠ id)
    (q : Row → Bool) : rows.filter (fun r => r.id == id && q r) = [] := by
  rw [List.filter_eq_nil_iff]
  intro r hr
  simp [hid r hr]

theorem filter_absent_id (rows : List Row) (id : Int) (hid : ∀ r ∈ rows, r.id ≠ id) :
    rows.filter (fun r => r.id == id) = [] := by
  rw [List.filter_eq_nil_iff]
  intro r hr
  simp [hid r hr]

theorem filter_keep_absent (rows : List Row) (id : Int) (hid : ∀ r ∈ rows, r.id ≠ id) :
    rows.filter (fun r => !(r.id == id)) = rows := by
  rw [List.filter_eq_self]
  intro r hr
  simp [hid r hr]

theorem map_update_absent (rows : List Row) (id : Int) (hid : ∀ r ∈ rows, r.id ≠ id)
    (name dob : String) :
    rows.map (fun r => if (r.id == id) = true then (⟨r.id, name, dob⟩ : Row) else r) = rows := by
  conv_rhs => rw [← List.map_id rows]
  apply List.map_congr_left
  intro r hr
  simp [hid r hr]

theorem repo_get_absent (db : DB) (drv : Driver) (id : Int) (hid : ∀ r ∈ db.rows, r.id ≠ id) :
    (repository.GetUserByID db drv id).1 = db.tick
      ∧ (repository.GetUserByID db drv id).2
          = (match drv.queryErr with
             | some err => .error err
             | none => .error .errNoRows) := by
  unfold repository.GetUserByID
  rw [find_absent db.rows id hid]
  cases drv.queryErr <;> simp

theorem repo_update_absent (db : DB) (drv : Driver) (id : Int) (name : String) (dob : Time)
    (hid : ∀ r ∈ db.rows, r.id ≠ id) :
    (repository.UpdateUser db drv id name dob).1 = db.tick
      ∧ (repository.UpdateUser db drv id name dob).2
          = (match drv.execErr, drv.resultErr with
             | some err, _ => .error err
             | none, some err => .error err
             | none, none => .error .errNoRows) := by
  unfold repository.UpdateUser repository.updateAffected
  rw [filter_absent db.rows id hid, map_update_absent db.rows id hid]
  cases drv.execErr <;> cases drv.resultErr <;> simp [DB.tick]

theorem repo_delete_absent (db : DB) (drv : Driver) (id : Int)
    (hid : ∀ r ∈ db.rows, r.id ≠ id) :
    (repository.DeleteUser db drv id).1 = db.tick
      ∧ (repository.DeleteUser db drv id).2
          = (match drv.execErr, drv.resultErr with
             | some err, _ => .error err
             | none, some err => .error err
             | none, none => .error .errNoRows) := by
  unfold repository.DeleteUser
  rw [filter_absent_id db.rows id hid, filter_keep_absent db.rows id hid]
  cases drv.execErr <;> cases drv.resultErr <;> simp [DB.tick]

/-! ## How the service passes the repository's errors on -/

theorem service_get_error (db : DB) (drv : Driver) (now : Time) (id : Int) (err : GoError)
    (h : (repository.GetUserByID db drv id).2 = .error err) :
    (service.GetUserByID db drv now id).1 = (repository.GetUserByID db drv id).1
      ∧ (service.GetUserByID db drv now id).2
          = (if err = .errNoRows then .error (.new "user not found") else .error err) := by
  unfold service.GetUserByID
  rcases hr : repository.GetUserByID db drv id with ⟨db1, e | u⟩
  · rw [hr] at h
    simp only [Except.error.injEq] at h
    subst h
    by_cases he : e = .errNoRows <;> simp [service.isErrNoRows, he]
  · rw [hr] at h
    simp at h

theorem service_update_error (db : DB) (drv : Driver) (id : Int) (req : UserRequest)
    (dob : Time) (err : GoError) (hp : Parse req.DOB = .ok dob)
    (h : (repository.UpdateUser db drv id req.Name dob).2 = .error err) :
    (service.UpdateUser db drv id req).1 = (repository.UpdateUser db drv id req.Name dob).1
      ∧ (service.UpdateUser db drv id req).2
          = (if err = .errNoRows then .error (.new "user not found") else .error err) := by
  unfold service.UpdateUser
  rw [hp]
  dsimp only
  rcases hr : repository.UpdateUser db drv id req.Name dob with ⟨db1, e | u⟩
  · rw [hr] at h
    simp only [Except.error.injEq] at h
    subst h
    by_cases he : e = .errNoRows <;> simp [service.isErrNoRows, he]
  · rw [hr] at h
    simp at h

theorem service_delete_error (db : DB) (drv : Driver) (id : Int) (err : GoError)
    (h : (repository.DeleteUser db drv id).2 = .error err) :
    (service.DeleteUser db drv id).1 = (repository.DeleteUser db drv id).1
      ∧ (service.DeleteUser db drv id).2
          = (if err = .errNoRows then .error (.new "user not found") else .error err) := by
  unfold service.DeleteUser
  rcases hr : repository.DeleteUser db drv id with ⟨db1, e | u⟩
  · rw [hr] at h
    simp only [Except.error.injEq] at h
    subst h
    by_cases he : e = .errNoRows <;> simp [service.isErrNoRows, he]
  · rw [hr] at h
    simp at h

/-- C8: for an id that no stored row has, `GetUserByID`, `UpdateUser` (with a
request whose date parses) and `DeleteUser` leave the table as it was; when
the driver raises no error each fails with `user not found`; and an error of
the repository other than `sql.ErrNoRows` is returned as it is, here and on
every other store and id. -/
theorem absent_id_not_found (db : DB) (drv : Driver) (now : Time) (id : Int)
    (req : UserRequest) (dob : Time)
    (hid : ∀ r ∈ db.rows, r.id ≠ id) (hp : Parse req.DOB = .ok dob) :
    ((service.GetUserByID db drv now id).1.sameStore db
        ∧ (service.UpdateUser db drv id req).1.sameStore db
        ∧ (service.DeleteUser db drv id).1.sameStore db)
      ∧ (drv.queryErr = none →
          (service.GetUserByID db drv now id).2 = .error (.new "user not found"))
      ∧ (drv.execErr = none → drv.resultErr = none →
          (service.UpdateUser db drv id req).2 = .error (.new "user not found")
            ∧ (service.DeleteUser db drv id).2 = .error (.new "user not found"))
      ∧ (∀ (db2 : DB) (drv2 : Driver) (id2 : Int) (err : GoError), err ≠ .errNoRows →
          ((repository.GetUserByID db2 drv2 id2).2 = .error err →
              (service.GetUserByID db2 drv2 now id2).2 = .error err)
            ∧ ((repository.UpdateUser db2 drv2 id2 req.Name dob).2 = .error err →
              (service.UpdateUser db2 drv2 id2 req).2 = .error err)
            ∧ ((repository.DeleteUser db2 drv2 id2).2 = .error err →
              (service.DeleteUser db2 drv2 id2).2 = .error err)) := by
  obtain ⟨g1, g2⟩ := repo_get_absent db drv id hid
  obtain ⟨u1, u2⟩ := repo_update_absent db drv id req.Name dob hid
  obtain ⟨d1, d2⟩ := repo_delete_absent db drv id hid
  have gerr : ∃ e, (repository.GetUserByID db drv id).2 = .error e := by
    rw [g2]; cases drv.queryErr <;> exact ⟨_, rfl⟩
  have uerr : ∃ e, (repository.UpdateUser db drv id req.Name dob).2 = .error e := by
    rw [u2]; cases drv.execErr <;> cases drv.resultErr <;> exact ⟨_, rfl⟩
  have derr : ∃ e, (repository.DeleteUser db drv id).2 = .error e := by
    rw [d2]; cases drv.execErr <;> cases drv.resultErr <;> exact ⟨_, rfl⟩
  obtain ⟨eg, heg⟩ := gerr
  obtain ⟨eu, heu⟩ := uerr
  obtain ⟨ed, hed⟩ := derr
  have sg := service_get_error db drv now id eg heg
  have su := service_update_error db drv id req dob eu hp heu
  have sd := service_delete_error db drv id ed hed
  refine ⟨⟨?_, ?_, ?_⟩, ?_, ?_, ?_⟩
  · rw [sg.1, g1]; exact ⟨rfl, rfl⟩
  · rw [su.1, u1]; exact ⟨rfl, rfl⟩
  · rw [sd.1, d1]; exact ⟨rfl, rfl⟩
  · intro hq
    rw [hq] at g2
    rw [g2] at heg
    simp only [Except.error.injEq] at heg
    subst heg
    simpa using sg.2
  · intro he hr
    rw [he, hr] at u2 d2
    rw [u2] at heu
    rw [d2] at hed
    simp only [Except.error.injEq] at heu hed
    subst heu hed
    exact ⟨by simpa using su.2, by simpa using sd.2⟩
  · intro db2 drv2 id2 err hne
    refine ⟨fun h => ?_, fun h => ?_, fun h => ?_⟩
    · simpa [hne] using (service_get_error db2 drv2 now id2 err h).2
    · simpa [hne] using (service_update_error db2 drv2 id2 req dob err hp h).2
    · simpa [hne] using (service_delete_error db2 drv2 id2 err h).2

theorem absent_id_not_found_witness :
    ((∀ r ∈ sampleDB.rows, r.id ≠ 7) ∧ Parse "2001-01-01" = .ok ⟨2001, 1, 1⟩)
      ∧ (service.GetUserByID sampleDB Driver.healthy ⟨2026, 11, 4⟩ 7).2
          = .error (.new "user not found")
      ∧ (service.UpdateUser sampleDB Driver.healthy 7 ⟨"Zed", "2001-01-01"⟩).2
          = .error (.new "user not found")
      ∧ (service.DeleteUser sampleDB Driver.healthy 7).2 = .error (.new "user not found")
      ∧ (service.DeleteUser sampleDB Driver.healthy 7).1.sameStore sampleDB
      ∧ (service.DeleteUser sampleDB ⟨some (.driver "bad connection"), none, none, none, false⟩
            7).2 = .error (.driver "bad connection") :=
  have h := absent_id_not_found sampleDB Driver.healthy ⟨2026, 11, 4⟩ 7 ⟨"Zed", "2001-01-01"⟩
    ⟨2001, 1, 1⟩ (by decide) rfl
  ⟨⟨by decide, rfl⟩, h.2.1 rfl, (h.2.2.1 rfl rfl).1, (h.2.2.1 rfl rfl).2, h.1.2.2,
   (h.2.2.2 sampleDB ⟨some (.driver "bad connection"), none, none, none, false⟩ 7
      (.driver "bad connection") (by decide)).2.2 rfl⟩

/-! ## Create, then read -/

theorem month_end_le_start (l : Bool) :
    ∀ m2 < 13, ∀ m < m2, 1 ≤ m →
      daysBefore (m - 1) + (if l = true ∧ 3 ≤ m then 1 else 0)
          + (if m = 2 ∧ l = true then 29 else daysBefore m - daysBefore (m - 1))
        ≤ daysBefore (m2 - 1) + (if l = true ∧ 3 ≤ m2 then 1 else 0) := by
  cases l <;> decide

theorem yearDay_mono (a b : Time) (ha : a.valid) (hb : b.valid) (hy : a.Year = b.Year)
    (hle : a.Month < b.Month ∨ (a.Month = b.Month ∧ a.Day ≤ b.Day)) :
    a.YearDay ≤ b.YearDay := by
  obtain ⟨a1, a2, a3, a4⟩ := ha
  obtain ⟨b1, b2, b3, b4⟩ := hb
  rcases a with ⟨y, m, d⟩
  rcases b with ⟨y2, m2, d2⟩
  simp only at a1 a2 a3 a4 b1 b2 b3 b4 hy hle
  subst hy
  unfold Time.YearDay
  simp only
  rcases hle with hlt | ⟨he, hd⟩
  · have hs := month_end_le_start (isLeap y) m2 (by omega) m hlt a1
    unfold daysIn at a4
    omega
  · subst he
    omega

theorem calculateAge_nonneg (now dob : Time) (hn : now.valid) (hd : dob.valid)
    (h : dob.notAfter now) : 0 ≤ CalculateAge now dob := by
  unfold CalculateAge
  dsimp only
  rcases h with h | ⟨hy, hle⟩
  · split <;> omega
  · have := yearDay_mono dob now hd hn hy hle
    rw [if_neg (by omega)]
    omega

theorem find_appended (rows : List Row) (row : Row) (hid : ∀ r ∈ rows, r.id ≠ row.id) :
    (rows ++ [row]).find? (fun r => r.id == row.id) = some row := by
  rw [List.find?_append, find_absent rows row.id hid]
  simp

theorem repo_create_ok (db db1 : DB) (drv : Driver) (name : String) (dob : Time) (id : Int)
    (h : repository.CreateUser db drv name dob = (db1, .ok id)) :
    id = db.nextId
      ∧ db1 = ⟨db.rows ++ [⟨db.nextId, name, dob.Format⟩], db.nextId + 1, db.calls + 1⟩ := by
  unfold repository.CreateUser at h
  split at h
  · simp at h
  · dsimp only at h
    split at h
    · simp at h
    · simp only [Prod.mk.injEq, Except.ok.injEq] at h
      exact ⟨h.2.symm, h.1.symm⟩

theorem service_create_ok (db db1 : DB) (drv : Driver) (req : UserRequest) (resp : UserResponse)
    (h : service.CreateUser db drv req = (db1, .ok resp)) :
    ∃ dob, Parse req.DOB = .ok dob
      ∧ resp = ⟨db.nextId, req.Name, req.DOB, none⟩
      ∧ db1 = ⟨db.rows ++ [⟨db.nextId, req.Name, dob.Format⟩], db.nextId + 1, db.calls + 1⟩ := by
  unfold service.CreateUser at h
  split at h
  · simp at h
  · rename_i dob hp
    split at h
    · simp at h
    · rename_i d uid hrepo
      simp only [Prod.mk.injEq, Except.ok.injEq] at h
      obtain ⟨hd, hr⟩ := h
      subst hd
      obtain ⟨hid, hdb⟩ := repo_create_ok _ _ _ _ _ _ hrepo
      subst hid
      exact ⟨dob, hp, hr.symm, hdb⟩

/-- C5 (amended): on a table that keeps its key invariants, when `CreateUser`
accepts a request, `GetUserByID` with the returned id (the driver raising no
error) answers with the name and the date-of-birth text of the request and the
age `CalculateAge` gives for the parsed date; that age is non-negative
whenever the date of birth is not after the current date. -/
theorem create_then_get (db db1 : DB) (drv drv2 : Driver) (now : Time) (req : UserRequest)
    (resp : UserResponse) (hwf : db.wf)
    (hc : service.CreateUser db drv req = (db1, .ok resp)) (hq : drv2.queryErr = none) :
    ∃ dob, Parse req.DOB = .ok dob
      ∧ (service.GetUserByID db1 drv2 now resp.ID).2
          = .ok ⟨resp.ID, req.Name, req.DOB, some (CalculateAge now dob)⟩
      ∧ (now.valid → dob.notAfter now → 0 ≤ CalculateAge now dob) := by
  obtain ⟨dob, hp, hr, hdb⟩ := service_create_ok db db1 drv req resp hc
  refine ⟨dob, hp, ?_, fun hn hle => calculateAge_nonneg now dob hn (parse_valid _ _ hp).1 hle⟩
  have hfmt := format_parse _ _ hp
  have hfind : db1.rows.find? (fun r => r.id == resp.ID) = some ⟨db.nextId, req.Name, req.DOB⟩ := by
    rw [hdb, hr, hfmt]
    exact find_appended db.rows ⟨db.nextId, req.Name, req.DOB⟩
      (fun r hr => ne_of_lt (hwf.2 r hr))
  unfold service.GetUserByID repository.GetUserByID
  rw [hq]
  simp only [hfind, hp]
  rw [hr, hfmt]

theorem create_then_get_witness :
    (sampleDB.wf
        ∧ service.CreateUser sampleDB Driver.healthy ⟨"Dan", "1990-05-10"⟩
            = (⟨sampleDB.rows ++ [⟨4, "Dan", "1990-05-10"⟩], 5, 1⟩,
               .ok ⟨4, "Dan", "1990-05-10", none⟩)
        ∧ Driver.healthy.queryErr = none)
      ∧ ∃ dob, Parse "1990-05-10" = .ok dob
          ∧ (service.GetUserByID ⟨sampleDB.rows ++ [⟨4, "Dan", "1990-05-10"⟩], 5, 1⟩
                Driver.healthy ⟨2026, 11, 4⟩ 4).2
              = .ok ⟨4, "Dan", "1990-05-10", some (CalculateAge ⟨2026, 11, 4⟩ dob)⟩
          ∧ (Time.valid ⟨2026, 11, 4⟩ → dob.notAfter ⟨2026, 11, 4⟩ →
              0 ≤ CalculateAge ⟨2026, 11, 4⟩ dob) :=
  ⟨⟨by unfold DB.wf; decide, rfl, rfl⟩,
   create_then_get sampleDB _ Driver.healthy Driver.healthy ⟨2026, 11, 4⟩
     ⟨"Dan", "1990-05-10"⟩ ⟨4, "Dan", "1990-05-10", none⟩ (by unfold DB.wf; decide) rfl rfl⟩

/-- C5, as stated, fails on the age: a date of birth after the current date
passes the validator of the handler and is accepted by `CreateUser`, and the
age read back is negative (`-4` for a birth in 2030 read on
4 November 2026, `-1` for a birth on 25 December 2026). -/
theorem negative_age_after_create :
    handler.validateStruct ⟨"Bob", "2030-01-01"⟩ = true
      ∧ (service.CreateUser ⟨[], 1, 0⟩ Driver.healthy ⟨"Bob", "2030-01-01"⟩).2
          = .ok ⟨1, "Bob", "2030-01-01", none⟩
      ∧ (service.GetUserByID
            (service.CreateUser ⟨[], 1, 0⟩ Driver.healthy ⟨"Bob", "2030-01-01"⟩).1
            Driver.healthy ⟨2026, 11, 4⟩ 1).2
          = .ok ⟨1, "Bob", "2030-01-01", some (-4)⟩
      ∧ (service.GetUserByID
            (service.CreateUser ⟨[], 1, 0⟩ Driver.healthy ⟨"Eve", "2026-12-25"⟩).1
            Driver.healthy ⟨2026, 11, 4⟩ 1).2
          = .ok ⟨1, "Eve", "2026-12-25", some (-1)⟩ :=
  ⟨rfl, rfl, rfl, rfl⟩

/-! ## The page of a list call -/

theorem scanRows_cols (now : Time) :
    ∀ (rows : List Row) (users : List User), repository.scanRows rows = .ok users →
      (users.map (service.toResponse now)).map UserResponse.cols = rows.map Row.cols
  | [], users, h => by
    simp only [repository.scanRows, Except.ok.injEq] at h
    subst h
    rfl
  | r :: rest, users, h => by
    unfold repository.scanRows at h
    split at h
    · simp at h
    · rename_i dob hp
      split at h
      · simp at h
      · rename_i us hs
        simp only [Except.ok.injEq] at h
        subst h
        have ih := scanRows_cols now rest us hs
        have hf := format_parse _ _ hp
        simp only [List.map_cons, ih]
        simp [service.toResponse, UserResponse.cols, Row.cols, hf]

theorem sorted_ids_strict (rows : List Row) (hnd : (rows.map Row.id).Nodup) :
    ((rows.insertionSort (fun a b => a.id ≤ b.id)).map Row.id).Sorted (· < ·) := by
  have htot : IsTotal Row (fun a b => a.id ≤ b.id) := ⟨fun a b => le_total a.id b.id⟩
  have htr : IsTrans Row (fun a b => a.id ≤ b.id) := ⟨fun a b c => le_trans⟩
  have hs : (rows.insertionSort (fun a b => a.id ≤ b.id)).Sorted (fun a b => a.id ≤ b.id) :=
    List.sorted_insertionSort _ rows
  have hle : ((rows.insertionSort (fun a b => a.id ≤ b.id)).map Row.id).Sorted (· ≤ ·) := by
    unfold List.Sorted at hs ⊢
    rw [List.pairwise_map]
    exact hs
  have hperm := (List.perm_insertionSort (fun a b : Row => a.id ≤ b.id) rows).map Row.id
  exact hle.lt_of_le (hperm.nodup_iff.mpr hnd)

theorem selectPage_ids_strict (rows : List Row) (hnd : (rows.map Row.id).Nodup)
    (offset limit : Nat) :
    ((repository.selectPage rows offset limit).map Row.id).Sorted (· < ·) := by
  have h := sorted_ids_strict rows hnd
  unfold repository.selectPage
  unfold List.Sorted at h ⊢
  refine h.sublist ?_
  exact (((List.take_sublist _ _).trans (List.drop_sublist _ _))).map Row.id

theorem cols_ids (us : List UserResponse) (rows : List Row)
    (h : us.map UserResponse.cols = rows.map Row.cols) :
    us.map UserResponse.ID = rows.map Row.id := by
  have := congrArg (List.map Prod.fst) h
  simpa [List.map_map, Function.comp_def, UserResponse.cols, Row.cols] using this

/-- The page a successful `GetAllUsers` returns, in terms of the offset the
service computed: at most `PageSize` users, ids strictly ascending, the rows at
positions `offset .. offset + PageSize - 1` of the table sorted by id, and the
row count as `Total`. -/
theorem getAllUsers_page (db db1 : DB) (drv : Driver) (now : Time) (page pageSize : Int)
    (r : UserListResponse) (hwf : db.wf)
    (h : service.GetAllUsers db drv now page pageSize = (db1, .ok r)) :
    (r.Users.length : Int) ≤ r.PageSize
      ∧ (r.Users.map UserResponse.ID).Sorted (· < ·)
      ∧ 0 ≤ service.pageOffset r.Page r.PageSize
      ∧ r.Users.map UserResponse.cols
          = (repository.selectPage db.rows (service.pageOffset r.Page r.PageSize).toNat
              r.PageSize.toNat).map Row.cols
      ∧ r.Total = db.rows.length := by
  obtain ⟨users, hrepo, hr⟩ := getAllUsers_ok db db1 drv now page pageSize r h
  obtain ⟨-, hoff, hlim, hscan, -⟩ := repo_getAllUsers_ok _ _ _ _ _ _ _ hrepo
  have hcols := scanRows_cols now _ _ hscan
  subst hr
  refine ⟨?_, ?_, hoff, hcols, rfl⟩
  · have hl := congrArg List.length hcols
    simp only [List.length_map] at hl
    simp only [List.length_map, hl]
    have : (repository.selectPage db.rows
        (service.pageOffset (service.clampPage page) (service.clampPageSize pageSize)).toNat
        (service.clampPageSize pageSize).toNat).length
          ≤ (service.clampPageSize pageSize).toNat := by
      unfold repository.selectPage
      exact List.length_take_le _ _
    omega
  · rw [cols_ids _ _ hcols]
    exact selectPage_ids_strict db.rows hwf.1 _ _

/-- While `(Page - 1) * PageSize` fits a Go `int`, the offset of the page is
that product and the page is the slice of the sorted table that starts there. -/
theorem getAllUsers_page_in_range (db db1 : DB) (drv : Driver) (now : Time)
    (page pageSize : Int) (r : UserListResponse) (hwf : db.wf)
    (h : service.GetAllUsers db drv now page pageSize = (db1, .ok r))
    (hpage : page ≤ maxInt) (hfit : (r.Page - 1) * r.PageSize ≤ maxInt) :
    (r.Users.length : Int) ≤ r.PageSize
      ∧ (r.Users.map UserResponse.ID).Sorted (· < ·)
      ∧ r.Users.map UserResponse.cols
          = (repository.selectPage db.rows ((r.Page - 1) * r.PageSize).toNat
              r.PageSize.toNat).map Row.cols
      ∧ r.Total = db.rows.length := by
  obtain ⟨h1, h2, -, h4, h5⟩ := getAllUsers_page db db1 drv now page pageSize r hwf h
  obtain ⟨users, -, hr⟩ := getAllUsers_ok db db1 drv now page pageSize r h
  have hp1 : 1 ≤ r.Page := by
    rw [hr]; simp only [service.clampPage]; split <;> omega
  have hp2 : r.Page ≤ maxInt := by
    rw [hr]; simp only [service.clampPage]; split
    · unfold maxInt; norm_num
    · exact hpage
  have hs0 : 0 ≤ r.PageSize := by
    rw [hr]; have := clampPageSize_range pageSize; simp only; omega
  rw [pageOffset_exact r.Page r.PageSize hp1 hp2 hs0 hfit] at h4
  exact ⟨h1, h2, h4, h5⟩

/-- C4: the request for page `2^58 + 1` with page size 64 on a table of three
users is answered with all three users under `Page = 2^58 + 1`: the offset
`(Page - 1) * PageSize = 2^64` wraps to 0, while the sorted table has no row
at position `2^64` or beyond. -/
theorem getAllUsers_wrong_page :
    handler.pageArgs (some 288230376151711745) (some 64) = (288230376151711745, 64)
      ∧ (288230376151711745 : Int) ≤ maxInt
      ∧ (service.GetAllUsers sampleDB Driver.healthy ⟨2026, 11, 4⟩ 288230376151711745 64).2
          = .ok ⟨[⟨1, "Alice", "1999-12-31", some 26⟩, ⟨2, "Bob", "2000-02-29", some 26⟩,
                  ⟨3, "Carol", "2000-03-01", some 26⟩], 288230376151711745, 64, 3, 1⟩
      ∧ ((288230376151711745 : Int) - 1) * 64 = 18446744073709551616
      ∧ repository.selectPage sampleDB.rows 18446744073709551616 64 = [] := by
  refine ⟨by decide, by decide, by rfl, by decide, ?_⟩
  unfold repository.selectPage
  rw [List.drop_of_length_le]
  · rfl
  · rw [List.length_insertionSort]
    decide

/-! ## The age algorithm within one kind of year -/

theorem yearDay_lt_of_month_lt (a b : Time) (ha : a.valid) (hb : b.valid)
    (hl : isLeap a.Year = isLeap b.Year) (hlt : a.Month < b.Month) :
    a.YearDay < b.YearDay := by
  obtain ⟨a1, a2, a3, a4⟩ := ha
  obtain ⟨b1, b2, b3, b4⟩ := hb
  rcases a with ⟨y, m, d⟩
  rcases b with ⟨y2, m2, d2⟩
  simp only at a1 a2 a3 a4 b1 b2 b3 b4 hl hlt
  unfold daysIn at a4
  unfold Time.YearDay
  simp only
  rw [hl] at a4 ⊢
  have hs := month_end_le_start (isLeap y2) m2 (by omega) m hlt a1
  omega

theorem yearDay_lt_iff_day_lt (a b : Time) (hl : isLeap a.Year = isLeap b.Year)
    (hm : a.Month = b.Month) : a.YearDay < b.YearDay ↔ a.Day < b.Day := by
  rcases a with ⟨y, m, d⟩
  rcases b with ⟨y2, m2, d2⟩
  simp only at hl hm
  subst hm
  unfold Time.YearDay
  simp only
  rw [hl]
  omega

/-- C11: when the current year and the birth year are both leap years or both
not, `CalculateAge` is the exact age: the year difference, less one exactly
when the current (month, day) comes before the birth (month, day). -/
theorem calculateAge_exact_same_leap (now dob : Time) (hn : now.valid) (hd : dob.valid)
    (hl : isLeap now.Year = isLeap dob.Year) :
    CalculateAge now dob = exactAge now dob
      ∧ exactAge now dob
          = now.Year - dob.Year
            - (if now.Month < dob.Month ∨ (now.Month = dob.Month ∧ now.Day < dob.Day)
               then 1 else 0) := by
  constructor
  · unfold CalculateAge exactAge
    dsimp only
    rcases Nat.lt_trichotomy now.Month dob.Month with hlt | heq | hgt
    · have h := yearDay_lt_of_month_lt now dob hn hd hl hlt
      rw [if_pos h, if_pos (Or.inl hlt)]
    · have h := yearDay_lt_iff_day_lt now dob hl heq
      by_cases hday : now.Day < dob.Day
      · rw [if_pos (h.mpr hday), if_pos (Or.inr ⟨heq, hday⟩)]
      · have hne : ¬ (now.Month < dob.Month ∨ (now.Month = dob.Month ∧ now.Day < dob.Day)) := by
          omega
        rw [if_neg (fun hy => hday (h.mp hy)), if_neg hne]
    · have h := yearDay_lt_of_month_lt dob now hd hn hl.symm hgt
      have hne : ¬ (now.Month < dob.Month ∨ (now.Month = dob.Month ∧ now.Day < dob.Day)) := by
        omega
      rw [if_neg (by omega), if_neg hne]
  · unfold exactAge
    split <;> omega

theorem calculateAge_exact_same_leap_witness :
    (Time.valid ⟨2024, 2, 28⟩ ∧ Time.valid ⟨2000, 2, 29⟩ ∧ isLeap 2024 = isLeap 2000)
      ∧ CalculateAge ⟨2024, 2, 28⟩ ⟨2000, 2, 29⟩ = exactAge ⟨2024, 2, 28⟩ ⟨2000, 2, 29⟩
      ∧ exactAge ⟨2024, 2, 28⟩ ⟨2000, 2, 29⟩ = 23 :=
  ⟨⟨by decide, by decide, by decide⟩,
   (calculateAge_exact_same_leap ⟨2024, 2, 28⟩ ⟨2000, 2, 29⟩ (by decide) (by decide)
      (by decide)).1,
   by decide⟩

end UserApi
